import Mathlib

/-!
Verification of the data-shaping steps of the `lux_review` notebook: the
hard-coded column drop, the column rename, and the two intent
annotations applied to the AI4I 2020 predictive-maintenance table.
-/

/-- A tabular dataset: a header of column names, rows of cell values
aligned positionally with the header, and the lux intent annotation. -/
structure Table where
  header : List String
  rows : List (List String)
  intent : List String
deriving Repr, DecidableEq

/-- The 14 columns of the AI4I 2020 predictive-maintenance CSV that
`pd.read_csv("ai4i2020.csv")` loads. -/
def ai4iHeader : List String :=
  ["UDI", "Product ID", "Type", "Air temperature [K]", "Process temperature [K]",
   "Rotational speed [rpm]", "Torque [Nm]", "Tool wear [min]", "Machine failure",
   "TWF", "HDF", "PWF", "OSF", "RNF"]

/-- The seven columns the notebook drops:
`df.drop(columns=["Product ID", "TWF","HDF","PWF","OSF","RNF","UDI"], inplace=True)`. -/
def dropNames : List String :=
  ["Product ID", "TWF", "HDF", "PWF", "OSF", "RNF", "UDI"]

/-- The rename dictionary passed to `df.rename(columns={...})`. -/
def renameMap : List (String × String) :=
  [("Air temperature [K]", "Air temperature (K)"),
   ("Process temperature [K]", "Process temperature (K)"),
   ("Rotational speed [rpm]", "Rotational speed (rpm)"),
   ("Torque [Nm]", "Torque (Nm)"),
   ("Tool wear [min]", "Tool wear (min)")]

/-- The source keys of the rename dictionary. -/
def oldNames : List String := renameMap.map Prod.fst

/-- The target values of the rename dictionary. -/
def newNames : List String := renameMap.map Prod.snd

/-- Dictionary lookup: send a single column name through the mapping,
leaving a name that is not a key unchanged. -/
def applyMap (m : List (String × String)) (c : String) : String :=
  match m with
  | [] => c
  | p :: rest => if c = p.1 then p.2 else applyMap rest c

/-- One row after dropping the cells sitting under the named columns. -/
def dropRow (names : List String) (header row : List String) : List String :=
  ((header.zip row).filter fun p => !(names.contains p.1)).map Prod.snd

/-- pandas `DataFrame.drop(columns=names)`: under the default
`errors="raise"` it raises a KeyError as soon as any requested column is
absent; otherwise it removes the named columns and their cells. -/
def dropColumns (names : List String) (t : Table) : Except String Table :=
  if names.all (fun c => t.header.contains c) then
    .ok { header := t.header.filter fun c => !(names.contains c),
          rows := t.rows.map (dropRow names t.header),
          intent := t.intent }
  else
    .error "KeyError"

/-- pandas `DataFrame.rename(columns=m)`: every column name is sent
through the mapping; cell data and the intent annotation are carried
over unchanged. -/
def renameColumns (m : List (String × String)) (t : Table) : Table :=
  { t with header := t.header.map (applyMap m) }

/-- pandas rename together with its `errors` flag: under `errors="raise"`
a key missing from the columns raises a KeyError, under the default
`errors="ignore"` missing keys are silently skipped. -/
def renameColumnsE (errorsRaise : Bool) (m : List (String × String)) (t : Table) :
    Except String Table :=
  if errorsRaise && !(m.all fun p => t.header.contains p.1) then
    .error "KeyError"
  else
    .ok (renameColumns m t)

/-- The notebook's drop call on the loaded table. -/
def dropOp (t : Table) : Except String Table := dropColumns dropNames t

/-- The notebook's rename call: `df = df.rename(columns={...})` passes no
`errors` argument, so pandas' default `errors="ignore"` applies. -/
def renameOp (t : Table) : Except String Table := renameColumnsE false renameMap t

/-- `df.intent = names`: store the lux intent annotation on the table. -/
def setIntent (names : List String) (t : Table) : Table :=
  { t with intent := names }

/-- The header of the cleaned table. -/
def cleanedHeader : List String :=
  ["Type", "Air temperature (K)", "Process temperature (K)",
   "Rotational speed (rpm)", "Torque (Nm)", "Tool wear (min)", "Machine failure"]

/-- The notebook's heap of DataFrame objects together with the index the
variable `df` is bound to.  This distinguishes in-place mutation
(overwriting a heap cell) from allocating a fresh object and rebinding. -/
structure NotebookState where
  heap : List Table
  dfIdx : Nat
deriving Repr, DecidableEq

/-- `df = pd.read_csv("ai4i2020.csv")`: one object on the heap, with `df`
bound to it. -/
def loadState (t : Table) : NotebookState := ⟨[t], 0⟩

/-- The table the variable `df` is currently bound to. -/
def boundTable (s : NotebookState) : Option Table := s.heap[s.dfIdx]?

/-- `df.drop(..., inplace=True)`: the bound object is overwritten in
place; the binding is untouched. -/
def dropStep (s : NotebookState) : Except String NotebookState :=
  match s.heap[s.dfIdx]? with
  | none => .error "NameError"
  | some t => (dropOp t).map fun u => ⟨s.heap.set s.dfIdx u, s.dfIdx⟩

/-- `df = df.rename(columns={...})`: `rename` allocates a fresh
DataFrame and the assignment rebinds `df` to it; the old object is not
written to. -/
def renameStep (s : NotebookState) : Except String NotebookState :=
  match s.heap[s.dfIdx]? with
  | none => .error "NameError"
  | some t => (renameOp t).map fun u => ⟨s.heap ++ [u], s.heap.length⟩

/-- `df.intent = names`: annotate the bound object in place. -/
def intentStep (names : List String) (s : NotebookState) : Except String NotebookState :=
  match s.heap[s.dfIdx]? with
  | none => .error "NameError"
  | some t => .ok ⟨s.heap.set s.dfIdx (setIntent names t), s.dfIdx⟩

deriving instance DecidableEq for Except

example : dropOp ⟨ai4iHeader, [], []⟩ =
    .ok ⟨["Type", "Air temperature [K]", "Process temperature [K]",
          "Rotational speed [rpm]", "Torque [Nm]", "Tool wear [min]",
          "Machine failure"], [], []⟩ := by decide

example : renameColumns renameMap
    ⟨["Type", "Air temperature [K]", "Process temperature [K]",
      "Rotational speed [rpm]", "Torque [Nm]", "Tool wear [min]",
      "Machine failure"], [], []⟩ = ⟨cleanedHeader, [], []⟩ := by decide

/-- A name that is not a key of the rename dictionary passes through unchanged. -/
theorem applyMap_of_not_key (c : String) (h : c ∉ oldNames) :
    applyMap renameMap c = c := by
  simp only [oldNames, renameMap, List.map_cons, List.map_nil, List.mem_cons,
    List.not_mem_nil, or_false, not_or] at h
  obtain ⟨h1, h2, h3, h4, h5⟩ := h
  simp [applyMap, renameMap, h1, h2, h3, h4, h5]

/-- Each key of the rename dictionary is sent to its associated value. -/
theorem applyMap_key_eq : ∀ p ∈ renameMap, applyMap renameMap p.1 = p.2 := by decide

/-- A key of the rename dictionary is sent into the value list. -/
theorem applyMap_key_mem_new : ∀ c ∈ oldNames, applyMap renameMap c ∈ newNames := by
  decide

/-- No output of the rename dictionary is one of its keys. -/
theorem applyMap_not_in_old (c : String) : applyMap renameMap c ∉ oldNames := by
  by_cases hk : c ∈ oldNames
  · exact (by decide : ∀ x ∈ oldNames, applyMap renameMap x ∉ oldNames) c hk
  · rw [applyMap_of_not_key c hk]
    exact hk

/-- The rename dictionary never touches membership in the dropped-column list. -/
theorem contains_applyMap_dropNames (c : String) :
    dropNames.contains (applyMap renameMap c) = dropNames.contains c := by
  by_cases hk : c ∈ oldNames
  · exact (by decide :
      ∀ x ∈ oldNames,
        dropNames.contains (applyMap renameMap x) = dropNames.contains x) c hk
  · rw [applyMap_of_not_key c hk]

/-- Sample table: the AI4I header over one representative row. -/
def tSample : Table :=
  ⟨ai4iHeader,
   [["1", "M14860", "M", "298.1", "308.6", "1551", "42.8", "0", "0",
     "0", "0", "0", "0", "0"]],
   []⟩

/-- C2: for every input table containing the seven hard-coded names, the
drop succeeds and the resulting column set is the original column set
minus exactly those seven names. -/
theorem drop_removes_exactly (t : Table) (h : ∀ c ∈ dropNames, c ∈ t.header) :
    ∃ u, dropOp t = .ok u ∧
      u.header = t.header.filter (fun c => !(dropNames.contains c)) ∧
      ∀ c, c ∈ u.header ↔ (c ∈ t.header ∧ c ∉ dropNames) := by
  have hcond : dropNames.all (fun c => t.header.contains c) = true := by
    rw [List.all_eq_true]
    intro x hx
    simpa [List.contains, List.elem_iff] using h x hx
  refine ⟨{ header := t.header.filter fun c => !(dropNames.contains c),
            rows := t.rows.map (dropRow dropNames t.header),
            intent := t.intent }, ?_, rfl, ?_⟩
  · simp only [dropOp, dropColumns, hcond, if_true]
  · intro c
    simp [List.mem_filter, List.contains, List.elem_iff]

theorem drop_removes_exactly_witness :
    (∀ c ∈ dropNames, c ∈ tSample.header) ∧
    ∃ u, dropOp tSample = .ok u ∧
      u.header = tSample.header.filter (fun c => !(dropNames.contains c)) ∧
      ∀ c, c ∈ u.header ↔ (c ∈ tSample.header ∧ c ∉ dropNames) :=
  ⟨by decide, drop_removes_exactly tSample (by decide)⟩

/-- C3: for every input table containing the five old column names, the
rename yields a table where every old name is absent, every new name is
present, and rows (hence all cell values and their order) are unchanged. -/
theorem rename_replaces_names (t : Table) (h : ∀ p ∈ renameMap, p.1 ∈ t.header) :
    ∃ u, renameOp t = .ok u ∧
      (∀ p ∈ renameMap, p.1 ∉ u.header) ∧
      (∀ p ∈ renameMap, p.2 ∈ u.header) ∧
      u.rows = t.rows := by
  refine ⟨renameColumns renameMap t, rfl, ?_, ?_, rfl⟩
  · intro p hp hmem
    rcases List.mem_map.1 hmem with ⟨a, _, hfa⟩
    exact applyMap_not_in_old a (hfa ▸ List.mem_map_of_mem Prod.fst hp)
  · intro p hp
    exact List.mem_map.2 ⟨p.1, h p hp, applyMap_key_eq p hp⟩

theorem rename_replaces_names_witness :
    (∀ p ∈ renameMap, p.1 ∈ tSample.header) ∧
    ∃ u, renameOp tSample = .ok u ∧
      (∀ p ∈ renameMap, p.1 ∉ u.header) ∧
      (∀ p ∈ renameMap, p.2 ∈ u.header) ∧
      u.rows = tSample.rows :=
  ⟨by decide, rename_replaces_names tSample (by decide)⟩

/-- C1: starting from any 10,000-row table with the AI4I header, the drop
succeeds and leaves exactly the 7 expected columns and all 10,000 rows;
the rename then succeeds, produces the cleaned header, and none of the 5
renamed column names contains a square-bracket character. -/
theorem end_to_end_cleaning (rows : List (List String)) (h : rows.length = 10000) :
    ∃ u, dropOp ⟨ai4iHeader, rows, []⟩ = .ok u ∧
      u.header.length = 7 ∧
      u.header = ["Type", "Air temperature [K]", "Process temperature [K]",
                  "Rotational speed [rpm]", "Torque [Nm]", "Tool wear [min]",
                  "Machine failure"] ∧
      u.rows.length = 10000 ∧
      renameOp u = .ok (renameColumns renameMap u) ∧
      (renameColumns renameMap u).header = cleanedHeader ∧
      newNames.all (fun c => !(c.data.contains '[')) = true := by
  have hc : (dropNames.all fun c => ai4iHeader.contains c) = true := by decide
  refine ⟨{ header := ai4iHeader.filter fun c => !(dropNames.contains c),
            rows := rows.map (dropRow dropNames ai4iHeader),
            intent := [] }, ?_, ?_, ?_, by simpa using h, rfl, ?_, by decide⟩
  · simp only [dropOp, dropColumns, hc, if_true]
  · show (ai4iHeader.filter fun c => !(dropNames.contains c)).length = 7
    decide
  · show (ai4iHeader.filter fun c => !(dropNames.contains c)) =
      ["Type", "Air temperature [K]", "Process temperature [K]",
       "Rotational speed [rpm]", "Torque [Nm]", "Tool wear [min]",
       "Machine failure"]
    decide
  · show ((ai4iHeader.filter fun c => !(dropNames.contains c)).map
      (applyMap renameMap)) = cleanedHeader
    decide

/-- Ten thousand rows standing in for the AI4I data points. -/
def sampleRows : List (List String) := List.replicate 10000 (List.replicate 14 "0")

theorem end_to_end_cleaning_witness :
    sampleRows.length = 10000 ∧
    ∃ u, dropOp ⟨ai4iHeader, sampleRows, []⟩ = .ok u ∧
      u.header.length = 7 ∧
      u.header = ["Type", "Air temperature [K]", "Process temperature [K]",
                  "Rotational speed [rpm]", "Torque [Nm]", "Tool wear [min]",
                  "Machine failure"] ∧
      u.rows.length = 10000 ∧
      renameOp u = .ok (renameColumns renameMap u) ∧
      (renameColumns renameMap u).header = cleanedHeader ∧
      newNames.all (fun c => !(c.data.contains '[')) = true :=
  ⟨List.length_replicate 10000 _,
   end_to_end_cleaning sampleRows (List.length_replicate 10000 _)⟩

/-- A table that is missing every key of the rename dictionary and every
dropped column except none — just a single `Type` column. -/
def tMissing : Table := ⟨["Type"], [], []⟩

/-- C4 as stated is false: the notebook's rename call passes no `errors`
argument, pandas defaults to `errors="ignore"`, and on a table missing
all five source keys the rename returns a table instead of raising. -/
theorem rename_missing_key_counterexample :
    "Air temperature [K]" ∈ oldNames ∧
    "Air temperature [K]" ∉ tMissing.header ∧
    renameOp tMissing = .ok tMissing := by decide

/-- C4 amended: the rename never fails; a source key absent from the
input's columns is silently ignored (pandas default `errors="ignore"`),
the operation always returns a table, and every column that is not a
source key keeps its name. -/
theorem rename_ignores_missing_keys (t : Table) (c : String)
    (h1 : c ∈ t.header) (h2 : c ∉ oldNames) :
    renameOp t = .ok (renameColumns renameMap t) ∧
    c ∈ (renameColumns renameMap t).header :=
  ⟨rfl, List.mem_map.2 ⟨c, h1, applyMap_of_not_key c h2⟩⟩

theorem rename_ignores_missing_keys_witness :
    "Type" ∈ tMissing.header ∧ "Type" ∉ oldNames ∧
    (renameOp tMissing = .ok (renameColumns renameMap tMissing) ∧
      "Type" ∈ (renameColumns renameMap tMissing).header) :=
  ⟨by decide, by decide, rename_ignores_missing_keys tMissing "Type" (by decide) (by decide)⟩

/-- C5: the drop raises (pandas default `errors="raise"`) whenever at
least one of the seven hard-coded column names is absent. -/
theorem drop_missing_column_fails (t : Table) (h : ∃ c ∈ dropNames, c ∉ t.header) :
    dropOp t = .error "KeyError" := by
  obtain ⟨c, hc, hmem⟩ := h
  have hcond : (dropNames.all fun c => t.header.contains c) = false := by
    rw [Bool.eq_false_iff]
    intro hall
    rw [List.all_eq_true] at hall
    exact hmem (by simpa [List.contains, List.elem_iff] using hall c hc)
  unfold dropOp dropColumns
  rw [hcond]
  exact rfl

theorem drop_missing_column_fails_witness :
    (∃ c ∈ dropNames, c ∉ tMissing.header) ∧
    dropOp tMissing = .error "KeyError" :=
  ⟨by decide, drop_missing_column_fails tMissing (by decide)⟩

/-- C6: the intent assignment is pure metadata: for any list of names
(validated nowhere in this repository, so for arbitrary names), the
assignment succeeds, stores the names, and leaves the bound table's rows
(count, values, order) and header untouched. -/
theorem intent_pure_metadata (s : NotebookState) (t : Table) (names : List String)
    (h : s.heap[s.dfIdx]? = some t) :
    intentStep names s = .ok ⟨s.heap.set s.dfIdx (setIntent names t), s.dfIdx⟩ ∧
    (setIntent names t).rows = t.rows ∧
    (setIntent names t).header = t.header ∧
    (setIntent names t).intent = names := by
  refine ⟨?_, rfl, rfl, rfl⟩
  simp [intentStep, h]

/-- The columns left after the in-place drop, square brackets still present. -/
def droppedHeader : List String :=
  ["Type", "Air temperature [K]", "Process temperature [K]",
   "Rotational speed [rpm]", "Torque [Nm]", "Tool wear [min]", "Machine failure"]

/-- C7 as stated is false for the rename: running load, drop, rename on a
table with the AI4I header leaves TWO objects on the heap.  The loaded
object (index 0) was mutated in place by the drop but still carries the
square-bracket names afterwards, and `df` has been rebound to a freshly
allocated object (index 1): the rename produced a new table instead of
modifying the loaded one. -/
theorem inplace_counterexample :
    (dropStep (loadState ⟨ai4iHeader, [], []⟩)).bind renameStep =
      .ok ⟨[⟨droppedHeader, [], []⟩, ⟨cleanedHeader, [], []⟩], 1⟩ ∧
    (⟨droppedHeader, [], []⟩ : Table) ≠ ⟨cleanedHeader, [], []⟩ ∧
    "Air temperature [K]" ∈ droppedHeader := by decide

/-- C7 amended: the drop mutates the bound table in place (the heap cell
is overwritten, no object is allocated, the binding is unchanged); the
rename allocates a new table and rebinds the variable to it, leaving the
previously bound object unchanged on the heap; the intent assignment
annotates the bound object without touching its header or rows. -/
theorem inplace_amended (s : NotebookState) (t u : Table)
    (h : s.heap[s.dfIdx]? = some t) (hd : dropOp t = .ok u) :
    dropStep s = .ok ⟨s.heap.set s.dfIdx u, s.dfIdx⟩ ∧
    renameStep s = .ok ⟨s.heap ++ [renameColumns renameMap t], s.heap.length⟩ ∧
    (s.heap ++ [renameColumns renameMap t])[s.dfIdx]? = some t ∧
    ∀ names, intentStep names s =
        .ok ⟨s.heap.set s.dfIdx (setIntent names t), s.dfIdx⟩ ∧
      (setIntent names t).header = t.header ∧ (setIntent names t).rows = t.rows := by
  obtain ⟨hlt, -⟩ := List.getElem?_eq_some.1 h
  refine ⟨?_, ?_, ?_, fun names => ⟨?_, rfl, rfl⟩⟩
  · simp [dropStep, h, hd, Except.map]
  · simp [renameStep, h, renameOp, renameColumnsE, Except.map]
  · rw [List.getElem?_append_left hlt]
    exact h
  · simp [intentStep, h]

theorem inplace_amended_witness :
    (loadState tSample).heap[(loadState tSample).dfIdx]? = some tSample ∧
    dropOp tSample = .ok ⟨droppedHeader, [["M", "298.1", "308.6", "1551", "42.8", "0", "0"]], []⟩ ∧
    (dropStep (loadState tSample) =
        .ok ⟨(loadState tSample).heap.set (loadState tSample).dfIdx
          ⟨droppedHeader, [["M", "298.1", "308.6", "1551", "42.8", "0", "0"]], []⟩,
          (loadState tSample).dfIdx⟩ ∧
      renameStep (loadState tSample) =
        .ok ⟨(loadState tSample).heap ++ [renameColumns renameMap tSample],
          (loadState tSample).heap.length⟩ ∧
      ((loadState tSample).heap ++
          [renameColumns renameMap tSample])[(loadState tSample).dfIdx]? = some tSample ∧
      ∀ names, intentStep names (loadState tSample) =
          .ok ⟨(loadState tSample).heap.set (loadState tSample).dfIdx
            (setIntent names tSample), (loadState tSample).dfIdx⟩ ∧
        (setIntent names tSample).header = tSample.header ∧
        (setIntent names tSample).rows = tSample.rows) :=
  ⟨by decide, by decide,
   inplace_amended (loadState tSample) tSample
     ⟨droppedHeader, [["M", "298.1", "308.6", "1551", "42.8", "0", "0"]], []⟩
     (by decide) (by decide)⟩

theorem intent_pure_metadata_witness :
    (loadState tSample).heap[(loadState tSample).dfIdx]? = some tSample ∧
    (intentStep ["No such column"] (loadState tSample) =
        .ok ⟨(loadState tSample).heap.set (loadState tSample).dfIdx
              (setIntent ["No such column"] tSample), (loadState tSample).dfIdx⟩ ∧
      (setIntent ["No such column"] tSample).rows = tSample.rows ∧
      (setIntent ["No such column"] tSample).header = tSample.header ∧
      (setIntent ["No such column"] tSample).intent = ["No such column"]) :=
  ⟨by decide, intent_pure_metadata (loadState tSample) tSample ["No such column"] (by decide)⟩

/-- Applying the rename dictionary to a single name twice is the same as
applying it once: its output is never a key. -/
theorem applyMap_idem (c : String) :
    applyMap renameMap (applyMap renameMap c) = applyMap renameMap c :=
  applyMap_of_not_key _ (applyMap_not_in_old c)

/-- Renaming a table twice yields the table renamed once. -/
theorem renameColumns_idem (t : Table) :
    renameColumns renameMap (renameColumns renameMap t) = renameColumns renameMap t := by
  unfold renameColumns
  congr 1
  rw [List.map_map]
  exact List.map_congr_left fun a _ => applyMap_idem a

/-- C8: the rename is idempotent.  None of the five new names occurs as a
source key of the mapping, and for any table the rename applied to an
already-renamed table returns it unchanged. -/
theorem rename_idempotent :
    (newNames.all fun c => !(oldNames.contains c)) = true ∧
    ∀ t : Table, ∃ u, renameOp t = .ok u ∧ renameOp u = .ok u := by
  refine ⟨by decide, fun t => ⟨renameColumns renameMap t, rfl, ?_⟩⟩
  show Except.ok (renameColumns renameMap (renameColumns renameMap t)) =
    Except.ok (renameColumns renameMap t)
  rw [renameColumns_idem]

/-- Membership in a list is transparent to the rename dictionary for the
seven dropped names, which are neither keys nor values of the mapping. -/
theorem mem_map_applyMap_iff (l : List String) (d : String) (hd : d ∈ dropNames) :
    d ∈ l.map (applyMap renameMap) ↔ d ∈ l := by
  have h7o : ∀ x ∈ dropNames, x ∉ oldNames := by decide
  have h7n : ∀ x ∈ dropNames, x ∉ newNames := by decide
  constructor
  · intro hm
    rcases List.mem_map.1 hm with ⟨a, ha, hfa⟩
    by_cases hk : a ∈ oldNames
    · exact absurd (hfa ▸ applyMap_key_mem_new a hk) (h7n d hd)
    · rw [applyMap_of_not_key a hk] at hfa
      exact hfa ▸ ha
  · intro hm
    exact List.mem_map.2 ⟨d, hm, applyMap_of_not_key d (h7o d hd)⟩

/-- Bool-level membership form of `contains` on a list of strings. -/
theorem contains_eq_true_iff (l : List String) (a : String) :
    l.contains a = true ↔ a ∈ l := by
  simp [List.contains, List.elem_iff]

/-- The rename does not change whether the drop can find its columns. -/
theorem dropCond_rename (t : Table) :
    (dropNames.all fun c => (renameColumns renameMap t).header.contains c) =
    (dropNames.all fun c => t.header.contains c) := by
  rw [Bool.eq_iff_iff]
  simp only [List.all_eq_true]
  constructor
  · intro hall c hc
    rw [contains_eq_true_iff]
    have hmem := (contains_eq_true_iff _ _).1 (hall c hc)
    exact (mem_map_applyMap_iff t.header c hc).1 hmem
  · intro hall c hc
    rw [contains_eq_true_iff]
    have hmem := (contains_eq_true_iff _ _).1 (hall c hc)
    exact (mem_map_applyMap_iff t.header c hc).2 hmem

/-- Dropping cells from a row is unaffected by first renaming the header. -/
theorem dropRow_rename (header row : List String) :
    dropRow dropNames (header.map (applyMap renameMap)) row =
    dropRow dropNames header row := by
  unfold dropRow
  rw [List.zip_map_left, List.filter_map, List.map_map]
  have hpt : ∀ x ∈ header.zip row,
      ((fun p : String × String => !(dropNames.contains p.1)) ∘
        Prod.map (applyMap renameMap) id) x =
      (fun p : String × String => !(dropNames.contains p.1)) x := by
    intro x _
    show (!(dropNames.contains (applyMap renameMap x.1))) = (!(dropNames.contains x.1))
    rw [contains_applyMap_dropNames]
  rw [List.filter_congr hpt]
  exact List.map_congr_left fun p _ => rfl

/-- Filtering the dropped names out of a renamed header is renaming the
filtered header. -/
theorem filter_rename_header (header : List String) :
    ((header.map (applyMap renameMap)).filter fun c => !(dropNames.contains c)) =
    ((header.filter fun c => !(dropNames.contains c)).map (applyMap renameMap)) := by
  rw [List.filter_map]
  have hpt : ∀ c ∈ header,
      ((fun c => !(dropNames.contains c)) ∘ applyMap renameMap) c =
      (fun c => !(dropNames.contains c)) c := by
    intro c _
    show (!(dropNames.contains (applyMap renameMap c))) = (!(dropNames.contains c))
    rw [contains_applyMap_dropNames]
  rw [List.filter_congr hpt]

/-- C9: the drop and the rename commute.  The seven dropped names are
disjoint from the rename's keys and values, and for every table running
drop then rename gives the same outcome as rename then drop. -/
theorem drop_rename_commute :
    (dropNames.all fun c => !(oldNames.contains c) && !(newNames.contains c)) = true ∧
    ∀ t : Table, (dropOp t).bind renameOp = (renameOp t).bind dropOp := by
  refine ⟨by decide, fun t => ?_⟩
  have hren : ∀ u : Table, renameOp u = .ok (renameColumns renameMap u) := fun u => rfl
  by_cases hcond : (dropNames.all fun c => t.header.contains c) = true
  · have hcond2 : (dropNames.all fun c =>
        (renameColumns renameMap t).header.contains c) = true := by
      rw [dropCond_rename]
      exact hcond
    have h1 : dropOp t = .ok ⟨t.header.filter fun c => !(dropNames.contains c),
        t.rows.map (dropRow dropNames t.header), t.intent⟩ := by
      unfold dropOp dropColumns
      rw [hcond]
      exact rfl
    have h2 : dropOp (renameColumns renameMap t) =
        .ok ⟨(t.header.map (applyMap renameMap)).filter fun c => !(dropNames.contains c),
          t.rows.map (dropRow dropNames (t.header.map (applyMap renameMap))), t.intent⟩ := by
      unfold dropOp dropColumns
      rw [hcond2]
      exact rfl
    rw [h1, hren t]
    show renameOp ⟨t.header.filter fun c => !(dropNames.contains c),
        t.rows.map (dropRow dropNames t.header), t.intent⟩ =
      dropOp (renameColumns renameMap t)
    rw [hren, h2]
    show Except.ok
        (⟨(t.header.filter fun c => !(dropNames.contains c)).map (applyMap renameMap),
          t.rows.map (dropRow dropNames t.header), t.intent⟩ : Table) = _
    simp only [Except.ok.injEq, Table.mk.injEq]
    refine ⟨?_, ?_, trivial⟩
    · exact (filter_rename_header t.header).symm
    · exact List.map_congr_left fun r _ => (dropRow_rename t.header r).symm
  · have hc : (dropNames.all fun c => t.header.contains c) = false :=
      Bool.eq_false_iff.2 hcond
    have hc2 : (dropNames.all fun c =>
        (renameColumns renameMap t).header.contains c) = false := by
      rw [dropCond_rename]
      exact hc
    have h1 : dropOp t = .error "KeyError" := by
      unfold dropOp dropColumns
      rw [hc]
      exact rfl
    have h2 : dropOp (renameColumns renameMap t) = .error "KeyError" := by
      unfold dropOp dropColumns
      rw [hc2]
      exact rfl
    rw [h1, hren t]
    show (Except.error "KeyError" : Except String Table) =
      dropOp (renameColumns renameMap t)
    rw [h2]

/-- The table object produced by the in-place drop, over arbitrary rows. -/
def dTab (rows : List (List String)) : Table :=
  ⟨ai4iHeader.filter fun c => !(dropNames.contains c),
   rows.map (dropRow dropNames ai4iHeader), []⟩

/-- The freshly allocated table produced by the rename. -/
def rTab (rows : List (List String)) : Table := renameColumns renameMap (dTab rows)

/-- C10: both names ever assigned as an attribute of intent refer to
existing columns of the cleaned table.  `Type` and `Machine failure` are
AI4I columns, are neither dropped nor rename keys, and each is a column
of the bound table at the moment its intent assignment runs in the
load-drop-rename-intent-intent pipeline. -/
theorem intent_names_are_columns (rows : List (List String)) :
    ("Type" ∈ ai4iHeader ∧ "Machine failure" ∈ ai4iHeader) ∧
    ("Type" ∉ dropNames ∧ "Machine failure" ∉ dropNames) ∧
    ("Type" ∉ oldNames ∧ "Machine failure" ∉ oldNames) ∧
    (dropStep (loadState ⟨ai4iHeader, rows, []⟩)).bind renameStep =
      .ok ⟨[dTab rows, rTab rows], 1⟩ ∧
    boundTable ⟨[dTab rows, rTab rows], 1⟩ = some (rTab rows) ∧
    "Type" ∈ (rTab rows).header ∧
    intentStep ["Type"] ⟨[dTab rows, rTab rows], 1⟩ =
      .ok ⟨[dTab rows, setIntent ["Type"] (rTab rows)], 1⟩ ∧
    boundTable ⟨[dTab rows, setIntent ["Type"] (rTab rows)], 1⟩ =
      some (setIntent ["Type"] (rTab rows)) ∧
    "Machine failure" ∈ (setIntent ["Type"] (rTab rows)).header ∧
    intentStep ["Machine failure"] ⟨[dTab rows, setIntent ["Type"] (rTab rows)], 1⟩ =
      .ok ⟨[dTab rows,
            setIntent ["Machine failure"] (setIntent ["Type"] (rTab rows))], 1⟩ := by
  refine ⟨by decide, by decide, by decide, ?_, rfl, ?_, ?_, rfl, ?_, ?_⟩
  · rfl
  · show "Type" ∈ (ai4iHeader.filter fun c => !(dropNames.contains c)).map
      (applyMap renameMap)
    decide
  · rfl
  · show "Machine failure" ∈ (ai4iHeader.filter fun c => !(dropNames.contains c)).map
      (applyMap renameMap)
    decide
  · rfl
